import Mathlib

/-!
Verification of the cskg knowledge-graph extractor/composer.

Shallow embedding of:
- `src/cskg/interpreter/vars.py` (variable extraction, access classification,
  containment and instantiates relationships);
- `src/cskg/composer/composer.py` (GraphComposer, chunking, cypher generation,
  field exclusion);
- `src/cskg/driver.py` (external-entity synthesis over the intermediate store,
  error handling of insert conflicts).

Python dictionaries are embedded as association lists in insertion order;
Python strings as `String`; the intermediate document store as named
collections of records.
-/

namespace CSKG

/-- The single-quote character (U+0027) as a string, used by the cypher
renderer in `composer.py` around string property values. -/
def sq : String := String.singleton (Char.ofNat 39)

/-- Python `str.startswith`, modelled on the underlying character lists. -/
def pyStartsWith (s p : String) : Bool := p.data.isPrefixOf s.data

/-- Python `str.endswith`, modelled on the underlying character lists. -/
def pyEndsWith (s p : String) : Bool := p.data.isSuffixOf s.data

/-- `get_variable_access` from `src/cskg/interpreter/vars.py` (lines 59-64):
two-underscore prefix without two-underscore suffix gives "private",
otherwise a single-underscore prefix gives "protected", otherwise "public". -/
def get_variable_access (variable_name : String) : String :=
  if pyStartsWith variable_name "__" && !(pyEndsWith variable_name "__") then "private"
  else if pyStartsWith variable_name "_" then "protected"
  else "public"

/-- Property values appearing in the extracted records.  The records the
claims concern carry strings, ints, booleans and None; this mirrors the
branches of `_get_dictionary_cypher` in `src/cskg/composer/composer.py`
relevant to them. -/
inductive Value where
  | str (s : String)
  | int (n : Int)
  | bool (b : Bool)
  | null
deriving DecidableEq

/-- A Python dict-shaped record: an association list in insertion order. -/
abbrev Document := List (String × Value)

/-- Field lookup in a record (first binding wins, as in a Python dict whose
keys are unique). -/
def getField (d : Document) (k : String) : Option Value :=
  match d with
  | [] => none
  | (k', v) :: rest => if k' = k then some v else getField rest k

/-- `_exclude_fields_dict` from `src/cskg/composer/composer.py` (lines
109-110): `{key: dict.get(key) for key in dict if key not in fields}`. -/
def exclude_fields_dict (d : Document) (fields : List String) : Document :=
  d.filter (fun kv => !(fields.contains kv.1))

/-- One `key: value` fragment of the loop body of `_get_dictionary_cypher`
(`src/cskg/composer/composer.py`, lines 92-105): string values are wrapped in
single quotes, `None` becomes `NULL`, booleans are lower-cased, other values
are printed directly. -/
def keypair (kv : String × Value) : String :=
  match kv.2 with
  | Value.str v => kv.1 ++ ": " ++ sq ++ v ++ sq
  | Value.null => kv.1 ++ ": NULL"
  | Value.bool b => kv.1 ++ ": " ++ (if b then "true" else "false")
  | Value.int n => kv.1 ++ ": " ++ toString n

/-- `_get_dictionary_cypher` from `src/cskg/composer/composer.py` (lines
89-106): excludes `_id` and `label`, renders each remaining field and joins
with `", "`. -/
def get_dictionary_cypher (d : Document) : String :=
  String.intercalate ", " ((exclude_fields_dict d ["_id", "label"]).map keypair)

/-- Modelled from the spec: the `Entity` record class (`cskg/utils/entity.py`
is not under `src/`); per the record model an entity carries its label set
and its dict-shaped fields, which is all `compose_entity_cypher` reads. -/
structure EntityRec where
  labels : List String
  fields : Document

/-- `GraphComposer.compose_entity_cypher` from
`src/cskg/composer/composer.py` (lines 34-40): one CREATE statement whose
label list and property text are concatenated into the statement string. -/
def compose_entity_cypher (e : EntityRec) : String :=
  "\n            CREATE (" ++ String.join (e.labels.map (fun l => ":" ++ l))
    ++ " \x7b " ++ get_dictionary_cypher e.fields ++ " \x7d) \n        "

/-- Modelled from the spec: the `Relationship` record class
(`cskg/utils/relationship.py` is not under `src/`); it carries its label, the
labels of the two endpoint entity kinds, the endpoint qualified names and its
dict-shaped fields, which is all `compose_relationship_cypher` reads. -/
structure RelationshipRec where
  label : String
  from_type_label : String
  from_qualified_name : String
  to_type_label : String
  to_qualified_name : String
  fields : Document

/-- `GraphComposer.compose_relationship_cypher` from
`src/cskg/composer/composer.py` (lines 53-66): MATCH both endpoints by label
and qualified name, then CREATE the edge; all parts are concatenated into the
statement string. -/
def compose_relationship_cypher (r : RelationshipRec) : String :=
  "\n            MATCH (a:" ++ r.from_type_label ++ " \x7bqualified_name: \""
    ++ r.from_qualified_name ++ "\"\x7d), (b:" ++ r.to_type_label
    ++ " \x7bqualified_name: \"" ++ r.to_qualified_name ++ "\"\x7d)\n            CREATE (a)-[:"
    ++ r.label ++ " \x7b " ++ get_dictionary_cypher r.fields ++ " \x7d]->(b)\n        "

/-- The kind of a scope node passed to `visit_local_variables`
(`Module | ClassDef | FunctionDef` in `src/cskg/interpreter/vars.py`). -/
inductive ScopeKind where
  | module
  | classDef
  | functionDef
deriving DecidableEq

/-- One entry of `node.items()` considered by `visit_local_variables`.
`isAssignName` models the `isinstance(var_assign_name, AssignName)` check.
Modelled from the spec: `inferred` is the result of the syntax tree's
name-inference facility (`get_inferred_type` lives in
`cskg/interpreter/__init__.py`, which is not under `src/`): `some q` when the
assigned value's inferred type resolves to a class-like scope with qualified
name `q`, `none` when it does not. -/
structure VarItem where
  name : String
  isAssignName : Bool
  inferred : Option String
deriving DecidableEq

/-- A scope node as read by `visit_local_variables`: its kind, its qualified
name (`node.qname()`), its file (`node.root().file`) and its local items. -/
structure ScopeNode where
  kind : ScopeKind
  qname : String
  file : String
  items : List VarItem
deriving DecidableEq

/-- The variable entity dict built by `visit_local_variables`
(`src/cskg/interpreter/vars.py`, lines 27-34). -/
def variable_ent (node : ScopeNode) (it : VarItem) : Document :=
  [("type", Value.str "variable_ent"),
   ("name", Value.str it.name),
   ("qualified_name", Value.str (node.qname ++ "." ++ it.name)),
   ("access", Value.str (get_variable_access it.name)),
   ("file_path", Value.str node.file)]

/-- `get_contains_rel` from `src/cskg/interpreter/vars.py` (lines 67-98).
Note the exact field names of each branch: the ClassDef branch uses
`from_qualified_name`/`to_qualified_name`, while the FunctionDef and Module
branches use `function_qualified_name`/`module_qualified_name` and
`variable_qualified_name`.  (The source's final `raise ValueError` branch is
unreachable here because `ScopeKind` covers exactly the three node kinds
`visit_local_variables` accepts.) -/
def get_contains_rel (node : ScopeNode) (var_qname : String) : List Document :=
  match node.kind with
  | ScopeKind.classDef =>
      [[("type", Value.str "contains_cv_rel"),
        ("from_type", Value.str "class"),
        ("from_qualified_name", Value.str node.qname),
        ("to_type", Value.str "variable"),
        ("to_qualified_name", Value.str var_qname)]]
  | ScopeKind.functionDef =>
      [[("type", Value.str "contains_fv_rel"),
        ("from_type", Value.str "function"),
        ("function_qualified_name", Value.str node.qname),
        ("to_type", Value.str "variable"),
        ("variable_qualified_name", Value.str var_qname)]]
  | ScopeKind.module =>
      [[("type", Value.str "contains_mv_rel"),
        ("from_type", Value.str "module"),
        ("module_qualified_name", Value.str node.qname),
        ("to_type", Value.str "variable"),
        ("variable_qualified_name", Value.str var_qname)]]

/-- The instantiates relationship dict built by `visit_local_variables`
(`src/cskg/interpreter/vars.py`, lines 48-55). -/
def instantiates_rel (class_qname var_qname : String) : Document :=
  [("type", Value.str "instantiates_rel"),
   ("from_type", Value.str "class"),
   ("from_qualified_name", Value.str class_qname),
   ("to_type", Value.str "variable"),
   ("to_qualified_name", Value.str var_qname)]

/-- The records yielded by one iteration of the loop in
`visit_local_variables` (`src/cskg/interpreter/vars.py`, lines 18-56): skip
non-AssignName items; otherwise yield the variable entity, then the
containment relationships, then - only when the inferred type is a
class-like scope - the instantiates relationship (the unresolved case is
logged and `continue`d). -/
def itemRecords (node : ScopeNode) (it : VarItem) : List Document :=
  if it.isAssignName = false then []
  else
    [variable_ent node it]
      ++ get_contains_rel node (node.qname ++ "." ++ it.name)
      ++ (match it.inferred with
          | none => []
          | some cq => [instantiates_rel cq (node.qname ++ "." ++ it.name)])

/-- `visit_local_variables` from `src/cskg/interpreter/vars.py` (lines
14-56): the concatenation of the records of every item, in item order. -/
def visit_local_variables (node : ScopeNode) : List Document :=
  (node.items.map (itemRecords node)).flatten

/-- Decides whether a record is an instantiates relationship (its `type`
field is `"instantiates_rel"`). -/
def isInstantiatesRel (d : Document) : Bool :=
  decide (getField d "type" = some (Value.str "instantiates_rel"))

/-- `CHUNK_SIZE` from `src/cskg/composer/composer.py` (line 11). -/
def CHUNK_SIZE : Nat := 1000

/-- `_chunk` from `src/cskg/composer/composer.py` (lines 76-86): take one
record, then up to `size - 1` more, and repeat on the rest.  (The Python
generator is consumed chunk-by-chunk by `compose_entities` /
`compose_relationships`, which makes it equivalent to this eager version.) -/
def chunk {α : Type} : List α → Nat → List (List α)
  | [], _ => []
  | x :: xs, size => (x :: xs.take (size - 1)) :: chunk (xs.drop (size - 1)) size
termination_by l _ => l.length
decreasing_by
  simp only [List.length_drop, List.length_cons]
  omega

/-- The length profile of `chunk`, as a structurally recursive function of
the collection length alone (`fuel` bounds the number of chunks; any
`fuel ≥ n` is enough when the chunk size is positive). -/
def chunkSizesGo (size : Nat) : Nat → Nat → List Nat
  | _, 0 => []
  | 0, _ + 1 => []
  | fuel + 1, n + 1 => min size (n + 1) :: chunkSizesGo size fuel (n + 1 - size)

/-- A graph-mutation operation executed by the composer: a node creation (for
an entity record) or an endpoint-lookup-plus-edge creation (for a
relationship record). -/
inductive Op where
  | node (d : Document)
  | edge (d : Document)
deriving DecidableEq

/-- The state of a `GraphComposer` (`src/cskg/composer/composer.py`, lines
14-23): the entity collections and relationship collections added so far, in
addition order. -/
structure GraphComposerState where
  entities : List (List Document)
  relationships : List (List Document)

/-- `GraphComposer.add_entities`. -/
def add_entities (g : GraphComposerState) (es : List Document) : GraphComposerState :=
  { g with entities := g.entities ++ [es] }

/-- `GraphComposer.add_relationships`. -/
def add_relationships (g : GraphComposerState) (rs : List Document) : GraphComposerState :=
  { g with relationships := g.relationships ++ [rs] }

/-- `GraphComposer.compose_entities` (`src/cskg/composer/composer.py`, lines
25-32): for each added entity collection, for each chunk, one transaction
(the inner list) containing one node-creation per record. -/
def compose_entities (g : GraphComposerState) : List (List Op) :=
  (g.entities.map (fun coll => (chunk coll CHUNK_SIZE).map (fun ch => ch.map Op.node))).flatten

/-- `GraphComposer.compose_relationships` (`src/cskg/composer/composer.py`,
lines 42-51): same shape, one edge-creation per relationship record. -/
def compose_relationships (g : GraphComposerState) : List (List Op) :=
  (g.relationships.map (fun coll => (chunk coll CHUNK_SIZE).map (fun ch => ch.map Op.edge))).flatten

/-- `GraphComposer.compose` (`src/cskg/composer/composer.py`, lines 68-70):
all entity transactions, then all relationship transactions. -/
def compose (g : GraphComposerState) : List (List Op) :=
  compose_entities g ++ compose_relationships g

/-- One `add_entities` or `add_relationships` call made on the composer
before `compose` runs. -/
inductive AddAction where
  | ents (c : List Document)
  | rels (c : List Document)

/-- A composer built by replaying a sequence of add calls in order,
starting from the freshly constructed (empty) composer. -/
def buildComposer (adds : List AddAction) : GraphComposerState :=
  adds.foldl
    (fun g a =>
      match a with
      | AddAction.ents c => add_entities g c
      | AddAction.rels c => add_relationships g c)
    ⟨[], []⟩

/-- The fields of a relationship record read by the aggregation pipeline of
`Driver.__populate_external_entities` (`src/cskg/driver.py`): the pipeline
matches on `to_type` and `to_qualified_name` and groups on
`to_qualified_name`. -/
structure RelDoc where
  to_type : String
  to_qualified_name : String
deriving DecidableEq

/-- Modelled from the spec: the external EntityRecord produced by the
`$project` stage of `Driver.__populate_external_entities` (the entity record
classes of `cskg/entity.py` are not under `src/`): `kind` is the external
counterpart entity kind, `name` and `qualified_name` are the grouped
qualified name, `file_path` is the `<external>` sentinel. -/
structure ExtEntityDoc where
  kind : String
  name : String
  qualified_name : String
  file_path : String
deriving DecidableEq

/-- Worker for `distinctFirst`: keep each name not seen before, in order. -/
def distinctFirstGo (seen : List String) : List String → List String
  | [] => []
  | x :: xs =>
      if seen.contains x then distinctFirstGo seen xs
      else x :: distinctFirstGo (x :: seen) xs

/-- First-occurrence deduplication of a list of qualified names: the
behaviour of the `$group` stage keyed on `$to_qualified_name` with a
`$first` accumulator. -/
def distinctFirst (l : List String) : List String :=
  distinctFirstGo [] l

/-- The aggregation pipeline run for one `(relationship kind, external
entity kind)` pair of `RELS_EXTERNAL_ENTITIES_MAPPING`
(`src/cskg/driver.py`, lines 118-143): `$match` keeps the relationships
whose `to_type` is the external entity kind and whose `to_qualified_name`
does not start with the module prefix followed by a dot (the negative
lookahead regex); `$group` keeps one entry per distinct qualified name;
`$project` builds one external entity record per entry. -/
def synthesizeForPair (modPre : String) (rels : List RelDoc) (entKind : String) :
    List ExtEntityDoc :=
  let matched := rels.filter
    (fun r => r.to_type == entKind && !(pyStartsWith r.to_qualified_name (modPre ++ ".")))
  (distinctFirst (matched.map (fun r => r.to_qualified_name))).map
    (fun q => ⟨entKind, q, q, "<external>"⟩)

/-- `RELS_EXTERNAL_ENTITIES_MAPPING` from `src/cskg/driver.py` (lines
15-22), with each record class stood for by its spec kind name
(`calls -> external_function`; `inherits`, `returns`, `yields`,
`instantiates`, `takes -> external_class`). -/
def RELS_EXTERNAL_ENTITIES_MAPPING : List (String × String) :=
  [("calls", "external_function"),
   ("inherits", "external_class"),
   ("returns", "external_class"),
   ("yields", "external_class"),
   ("instantiates", "external_class"),
   ("takes", "external_class")]

/-- Pointwise update of a named-collection map. -/
def updateColl {α : Type} (f : String → List α) (k : String) (v : List α) :
    String → List α :=
  fun n => if n = k then v else f n

/-- The intermediate store as seen by external-entity synthesis: one
relationship collection and one entity collection per kind name.  Inserting
appends to a collection: the driver's collections are plain document
collections and no unique index is created anywhere in `src/`, so
`insert_many` adds every given record (the `except InvalidOperation` around
the empty-result case corresponds to appending the empty list). -/
structure MongoStore where
  relCollections : String → List RelDoc
  entCollections : String → List ExtEntityDoc

/-- `Driver.__populate_external_entities` (`src/cskg/driver.py`, lines
112-148): for each mapping pair, run the aggregation pipeline over that
relationship collection and insert the resulting external entity records
into that entity collection. -/
def populate_external_entities (modPre : String) (store : MongoStore) : MongoStore :=
  RELS_EXTERNAL_ENTITIES_MAPPING.foldl
    (fun st p =>
      { st with
          entCollections :=
            updateColl st.entCollections p.2
              (st.entCollections p.2
                ++ synthesizeForPair modPre (st.relCollections p.1) p.2) })
    store

/-- The exception classes distinguished by the `except` clauses in
`src/cskg/driver.py`: `DuplicateKeyError`, `InvalidOperation` (both from
`pymongo.errors`; `DuplicateKeyError` is not a subclass of
`InvalidOperation`), and any other exception. -/
inductive PyExc where
  | duplicateKey
  | invalidOperation
  | otherExc
deriving DecidableEq

/-- The outcome of one store insert: it returns normally or raises an
exception. -/
inductive InsertOutcome where
  | ok
  | raised (e : PyExc)
deriving DecidableEq

/-- The staging loop of `Driver.__interpret_code` (`src/cskg/driver.py`,
lines 67-81), as a function of the outcome of each `insert_one` call:
`StopIteration` (the end of the list) breaks the loop, `DuplicateKeyError`
is logged and the loop continues, any other exception is re-raised. -/
def interpret_code_run : List InsertOutcome → Except PyExc Unit
  | [] => Except.ok ()
  | InsertOutcome.ok :: rest => interpret_code_run rest
  | InsertOutcome.raised PyExc.duplicateKey :: rest => interpret_code_run rest
  | InsertOutcome.raised e :: _ => Except.error e

/-- The insert loop of `Driver.__populate_external_entities`
(`src/cskg/driver.py`, lines 144-148), as a function of the outcome of the
`insert_many` call of each mapping pair: only `InvalidOperation` is caught
(logged, loop continues); every other exception propagates. -/
def populate_external_entities_run : List InsertOutcome → Except PyExc Unit
  | [] => Except.ok ()
  | InsertOutcome.ok :: rest => populate_external_entities_run rest
  | InsertOutcome.raised PyExc.invalidOperation :: rest => populate_external_entities_run rest
  | InsertOutcome.raised e :: _ => Except.error e

theorem chunk_nil {α : Type} (size : Nat) : chunk ([] : List α) size = [] := by
  simp [chunk]

theorem chunk_cons {α : Type} (x : α) (xs : List α) (size : Nat) :
    chunk (x :: xs) size = (x :: xs.take (size - 1)) :: chunk (xs.drop (size - 1)) size := by
  simp [chunk]

theorem chunk_eq_nil_iff {α : Type} (l : List α) (size : Nat) :
    chunk l size = [] ↔ l = [] := by
  cases l with
  | nil => simp [chunk_nil]
  | cons x xs => rw [chunk_cons]; simp

theorem chunk_flatten {α : Type} (size : Nat) (l : List α) :
    (chunk l size).flatten = l := by
  suffices h : ∀ (n : Nat) (l : List α), l.length ≤ n → (chunk l size).flatten = l from
    h l.length l le_rfl
  intro n
  induction n with
  | zero =>
      intro l hl
      have hnil : l = [] := List.eq_nil_of_length_eq_zero (Nat.le_zero.mp hl)
      subst hnil
      simp [chunk_nil]
  | succ n ih =>
      intro l hl
      cases l with
      | nil => simp [chunk_nil]
      | cons x xs =>
          rw [chunk_cons, List.flatten_cons]
          rw [ih (xs.drop (size - 1))]
          · simp [List.take_append_drop]
          · have := List.length_drop (size - 1) xs
            simp only [List.length_cons] at hl
            omega

theorem chunkSizesGo_succ (size fuel n : Nat) :
    chunkSizesGo size (fuel + 1) (n + 1)
      = min size (n + 1) :: chunkSizesGo size fuel (n + 1 - size) := rfl

theorem chunk_map_length {α : Type} (size : Nat) (hs : 0 < size) :
    ∀ (fuel : Nat) (l : List α), l.length ≤ fuel →
      (chunk l size).map List.length = chunkSizesGo size fuel l.length := by
  intro fuel
  induction fuel with
  | zero =>
      intro l hl
      have hnil : l = [] := List.eq_nil_of_length_eq_zero (Nat.le_zero.mp hl)
      subst hnil
      simp [chunk_nil, chunkSizesGo]
  | succ n ih =>
      intro l hl
      cases l with
      | nil => simp [chunk_nil, chunkSizesGo]
      | cons x xs =>
          rw [chunk_cons, List.map_cons]
          simp only [List.length_cons]
          rw [chunkSizesGo_succ]
          have hdrop := List.length_drop (size - 1) xs
          have htake := List.length_take (size - 1) xs
          simp only [List.length_cons] at hl
          rw [ih (xs.drop (size - 1)) (by omega)]
          rw [hdrop, htake]
          have h1 : min (size - 1) xs.length + 1 = min size (xs.length + 1) := by omega
          have h2 : xs.length - (size - 1) = xs.length + 1 - size := by omega
          rw [h1, h2]

theorem chunk_length_bounds {α : Type} (size : Nat) (hs : 0 < size) (l : List α) :
    ∀ c ∈ chunk l size, 0 < c.length ∧ c.length ≤ size := by
  suffices h : ∀ (n : Nat) (l : List α), l.length ≤ n →
      ∀ c ∈ chunk l size, 0 < c.length ∧ c.length ≤ size from h l.length l le_rfl
  intro n
  induction n with
  | zero =>
      intro l hl c hc
      have hnil : l = [] := List.eq_nil_of_length_eq_zero (Nat.le_zero.mp hl)
      subst hnil
      simp [chunk_nil] at hc
  | succ n ih =>
      intro l hl c hc
      cases l with
      | nil => simp [chunk_nil] at hc
      | cons x xs =>
          rw [chunk_cons] at hc
          simp only [List.length_cons] at hl
          rcases List.mem_cons.mp hc with h | h
          · subst h
            have htake := List.length_take (size - 1) xs
            constructor
            · simp
            · simp only [List.length_cons, htake]
              omega
          · exact ih (xs.drop (size - 1)) (by have := List.length_drop (size - 1) xs; omega) c h

theorem chunk_dropLast_length {α : Type} (size : Nat) (hs : 0 < size) (l : List α) :
    ∀ c ∈ (chunk l size).dropLast, c.length = size := by
  suffices h : ∀ (n : Nat) (l : List α), l.length ≤ n →
      ∀ c ∈ (chunk l size).dropLast, c.length = size from h l.length l le_rfl
  intro n
  induction n with
  | zero =>
      intro l hl c hc
      have hnil : l = [] := List.eq_nil_of_length_eq_zero (Nat.le_zero.mp hl)
      subst hnil
      simp [chunk_nil] at hc
  | succ n ih =>
      intro l hl c hc
      cases l with
      | nil => simp [chunk_nil] at hc
      | cons x xs =>
          rw [chunk_cons] at hc
          simp only [List.length_cons] at hl
          cases hrest : chunk (xs.drop (size - 1)) size with
          | nil => rw [hrest, List.dropLast_single] at hc; simp at hc
          | cons b bs =>
              rw [hrest, List.dropLast_cons₂] at hc
              rcases List.mem_cons.mp hc with h | h
              · subst h
                have hne : xs.drop (size - 1) ≠ [] := by
                  intro habs
                  rw [habs, chunk_nil] at hrest
                  exact List.noConfusion hrest
                have hlen : 0 < (xs.drop (size - 1)).length := List.length_pos.mpr hne
                have hdrop := List.length_drop (size - 1) xs
                have htake := List.length_take (size - 1) xs
                simp only [List.length_cons, htake]
                omega
              · rw [← hrest] at h
                exact ih (xs.drop (size - 1))
                  (by have := List.length_drop (size - 1) xs; omega) c h

/-- Claim C1: in the operation sequence produced by one `compose` call,
every node-creation operation derived from any entity collection comes
before any edge-creation operation derived from any relationship collection,
whatever the order of the `add_entities` / `add_relationships` calls that
built the composer. -/
theorem c1_entities_before_relationships (adds : List AddAction) :
    ∃ ns es : List Op,
      (compose (buildComposer adds)).flatten = ns ++ es
      ∧ (∀ op ∈ ns, ∃ d, op = Op.node d)
      ∧ (∀ op ∈ es, ∃ d, op = Op.edge d) := by
  refine ⟨(compose_entities (buildComposer adds)).flatten,
    (compose_relationships (buildComposer adds)).flatten, ?_, ?_, ?_⟩
  · rw [compose, List.flatten_append]
  · intro op hop
    rw [compose_entities] at hop
    rcases List.mem_flatten.mp hop with ⟨tx, htx, hoptx⟩
    rcases List.mem_flatten.mp htx with ⟨txs, htxs, htxtx⟩
    rcases List.mem_map.mp htxs with ⟨coll, _, rfl⟩
    rcases List.mem_map.mp htxtx with ⟨ch, _, rfl⟩
    rcases List.mem_map.mp hoptx with ⟨d, _, rfl⟩
    exact ⟨d, rfl⟩
  · intro op hop
    rw [compose_relationships] at hop
    rcases List.mem_flatten.mp hop with ⟨tx, htx, hoptx⟩
    rcases List.mem_flatten.mp htx with ⟨txs, htxs, htxtx⟩
    rcases List.mem_map.mp htxs with ⟨coll, _, rfl⟩
    rcases List.mem_map.mp htxtx with ⟨ch, _, rfl⟩
    rcases List.mem_map.mp hoptx with ⟨d, _, rfl⟩
    exact ⟨d, rfl⟩

/-- Claim C4: chunked composition with chunk size 1000 partitions a
collection into consecutive batches, each of exactly 1000 records except a
possibly smaller (nonempty) final batch; concatenating the batches in order
reproduces the collection; a collection of 2500 records yields exactly the
batch sizes 1000, 1000, 500; and `compose_entities` runs one transaction
per batch. -/
theorem c4_chunking {α : Type} (l : List α) :
    (chunk l CHUNK_SIZE).flatten = l
    ∧ (∀ c ∈ (chunk l CHUNK_SIZE).dropLast, c.length = CHUNK_SIZE)
    ∧ (∀ c ∈ chunk l CHUNK_SIZE, 0 < c.length ∧ c.length ≤ CHUNK_SIZE)
    ∧ (l.length = 2500 → (chunk l CHUNK_SIZE).map List.length = [1000, 1000, 500])
    ∧ (∀ coll : List Document,
        compose_entities ⟨[coll], []⟩
          = (chunk coll CHUNK_SIZE).map (fun ch => ch.map Op.node)) := by
  refine ⟨chunk_flatten _ _, chunk_dropLast_length _ (by decide) _,
    chunk_length_bounds _ (by decide) _, ?_, ?_⟩
  · intro h
    have hbr := chunk_map_length CHUNK_SIZE (by decide) l.length l le_rfl
    rw [hbr, h]
    decide
  · intro coll
    simp [compose_entities]

/-- Witness for C4 at a concrete 2500-element collection. -/
theorem c4_chunking_witness :
    (chunk (List.range 2500) CHUNK_SIZE).map List.length = [1000, 1000, 500] :=
  (c4_chunking (List.range 2500)).2.2.2.1 (by simp)

theorem isPrefixOf_of_cons_isPrefixOf {a : Char} {p t : List Char}
    (h : (a :: p).isPrefixOf t = true) : [a].isPrefixOf t = true := by
  cases t with
  | nil => simp [List.isPrefixOf] at h
  | cons b bs =>
      simp [List.isPrefixOf] at h ⊢
      exact h.1

theorem pyStartsWith_single_of_double (s : String)
    (h : pyStartsWith s "__" = true) : pyStartsWith s "_" = true := by
  have h2 : "__".data = '_' :: "_".data := rfl
  simp only [pyStartsWith, h2] at h
  exact isPrefixOf_of_cons_isPrefixOf h

/-- Claim C2 counterexample: the dunder-style name `__x__` is classified
`protected` by the code, not `public` as the claim states (it escapes the
`private` case because of its two-underscore suffix, but still matches the
single-underscore-prefix `protected` case). -/
theorem c2_dunder_counterexample :
    get_variable_access "__x__" = "protected" ∧ get_variable_access "__x__" ≠ "public" := by
  decide

/-- Claim C2 amended: `private` for a two-underscore prefix without a
two-underscore suffix; `protected` for any other single-underscore prefix -
including dunder-style names such as `__x__`; `public` exactly when there is
no single-underscore prefix. -/
theorem c2_variable_access_amended (s : String) :
    (get_variable_access s = "private"
      ↔ pyStartsWith s "__" = true ∧ pyEndsWith s "__" = false)
    ∧ (get_variable_access s = "protected"
      ↔ pyStartsWith s "_" = true
        ∧ ¬(pyStartsWith s "__" = true ∧ pyEndsWith s "__" = false))
    ∧ (get_variable_access s = "public" ↔ pyStartsWith s "_" = false)
    ∧ get_variable_access "__x__" = "protected"
    ∧ get_variable_access "__x" = "private"
    ∧ get_variable_access "_x" = "protected"
    ∧ get_variable_access "x" = "public" := by
  refine ⟨?_, ?_, ?_, by decide, by decide, by decide, by decide⟩ <;>
    (cases hA : pyStartsWith s "__" <;> cases hB : pyEndsWith s "__" <;>
      cases hC : pyStartsWith s "_" <;>
        simp [get_variable_access, hA, hB, hC] <;>
          rw [pyStartsWith_single_of_double s hA] at hC <;> simp at hC)

/-- Claim C10: the property payload of a generated mutation is built from
exactly the record's fields other than `_id` and `label`: a binding survives
`_exclude_fields_dict` if and only if it is a binding of the record whose
key is neither `_id` nor `label`, and the rendered property text is the
rendering of exactly those bindings, in order. -/
theorem c10_payload_frame (d : Document) (k : String) (v : Value) :
    ((k, v) ∈ exclude_fields_dict d ["_id", "label"]
      ↔ (k, v) ∈ d ∧ k ≠ "_id" ∧ k ≠ "label")
    ∧ get_dictionary_cypher d
      = String.intercalate ", " ((exclude_fields_dict d ["_id", "label"]).map keypair) := by
  refine ⟨?_, rfl⟩
  simp only [exclude_fields_dict, List.mem_filter, Bool.not_eq_true']
  constructor
  · rintro ⟨hm, hc⟩
    refine ⟨hm, ?_, ?_⟩ <;> (intro habs; subst habs; simp at hc)
  · rintro ⟨hm, h1, h2⟩
    refine ⟨hm, ?_⟩
    simp [List.contains_cons, h1, h2]

/-- Claim C5 counterexample: the generated statement text is not independent
of property values - two entity records identical except for one property
value (one containing a quote character), and likewise two relationship
records differing only in an endpoint qualified name, produce different
statement texts, because the values are string-interpolated into the
statement. -/
theorem c5_interpolation_counterexample :
    compose_entity_cypher ⟨["Class"], [("qualified_name", Value.str "a.B")]⟩
      ≠ compose_entity_cypher ⟨["Class"], [("qualified_name", Value.str ("a.B" ++ sq))]⟩
    ∧ compose_relationship_cypher ⟨"CALLS", "Function", "m.f", "Function", "os.path.join", []⟩
      ≠ compose_relationship_cypher
          ⟨"CALLS", "Function", "m.f", "Function", "os.path.join\") MATCH (x", []⟩ := by
  constructor <;> decide

/-- Claim C5 amended: the statement text string-interpolates property
values (string values are spliced between single quotes, unescaped), so the
statement text determines and is changed by the property value: two entity
records that differ only in one property value yield different statements. -/
theorem c5_value_interpolated_amended (v₁ v₂ : String) (h : v₁ ≠ v₂) :
    compose_entity_cypher ⟨["X"], [("qualified_name", Value.str v₁)]⟩
      ≠ compose_entity_cypher ⟨["X"], [("qualified_name", Value.str v₂)]⟩ := by
  intro heq
  apply h
  have hd := congrArg String.data heq
  have hd' : ("\n            CREATE (:X \x7b qualified_name: " ++ sq).data
        ++ ((v₁.data ++ sq.data) ++ " \x7d) \n        ".data)
      = ("\n            CREATE (:X \x7b qualified_name: " ++ sq).data
        ++ ((v₂.data ++ sq.data) ++ " \x7d) \n        ".data) := hd
  have h1 := List.append_cancel_left hd'
  have h2 := List.append_cancel_right h1
  exact String.ext (List.append_cancel_right h2)

/-- Witness for the amended C5 at two concrete values. -/
theorem c5_value_interpolated_witness :
    ("a" : String) ≠ "b"
    ∧ compose_entity_cypher ⟨["X"], [("qualified_name", Value.str "a")]⟩
      ≠ compose_entity_cypher ⟨["X"], [("qualified_name", Value.str "b")]⟩ :=
  ⟨by decide, c5_value_interpolated_amended "a" "b" (by decide)⟩

/-- Claim C9: for an assignment item, the variable entity and its
containment relationship are always emitted; when the inferred type does not
resolve to a class-like scope, the item's records are exactly the entity and
the containment relationship and no instantiates relationship is emitted
(the case is logged and the loop continues - the emission function is total
and later items are still processed); when it resolves to a class with
qualified name `cq`, exactly one instantiates relationship is emitted, with
the class as the `from` endpoint and the variable as the `to` endpoint. -/
theorem c9_instantiates_handling (node : ScopeNode) (it : VarItem)
    (h : it.isAssignName = true) :
    variable_ent node it ∈ itemRecords node it
    ∧ (∀ c ∈ get_contains_rel node (node.qname ++ "." ++ it.name), c ∈ itemRecords node it)
    ∧ (it.inferred = none →
        itemRecords node it
          = variable_ent node it :: get_contains_rel node (node.qname ++ "." ++ it.name)
        ∧ (itemRecords node it).filter isInstantiatesRel = [])
    ∧ (∀ cq, it.inferred = some cq →
        (itemRecords node it).filter isInstantiatesRel
          = [instantiates_rel cq (node.qname ++ "." ++ it.name)])
    ∧ visit_local_variables node = (node.items.map (itemRecords node)).flatten := by
  refine ⟨?_, ?_, ?_, ?_, rfl⟩
  · simp [itemRecords, h]
  · intro c hc
    simp only [itemRecords, h, Bool.true_eq_false, if_false, List.mem_append,
      List.mem_singleton]
    exact Or.inl (Or.inr hc)
  · intro hn
    constructor
    · simp [itemRecords, h, hn]
    · cases hk : node.kind <;>
        simp [itemRecords, h, hn, get_contains_rel, hk, isInstantiatesRel, getField,
          variable_ent]
  · intro cq hcq
    cases hk : node.kind <;>
      simp [itemRecords, h, hcq, get_contains_rel, hk, isInstantiatesRel, getField,
        variable_ent, instantiates_rel]

/-- Witness for C9 at a concrete module-level assignment whose inferred type
resolves to the class `m.C`. -/
theorem c9_instantiates_handling_witness :
    (itemRecords ⟨ScopeKind.module, "m", "m.py", [⟨"x", true, some "m.C"⟩]⟩
        ⟨"x", true, some "m.C"⟩).filter isInstantiatesRel
      = [instantiates_rel "m.C" "m.x"]
    ∧ variable_ent ⟨ScopeKind.module, "m", "m.py", [⟨"x", true, some "m.C"⟩]⟩
        ⟨"x", true, some "m.C"⟩
      ∈ itemRecords ⟨ScopeKind.module, "m", "m.py", [⟨"x", true, some "m.C"⟩]⟩
          ⟨"x", true, some "m.C"⟩ :=
  ⟨(c9_instantiates_handling _ _ rfl).2.2.2.1 "m.C" rfl,
   (c9_instantiates_handling _ _ rfl).1⟩

/-- Claim C7 (code bug): the containment relationship records for
function-scope and module-scope variables do not carry their endpoints in
`from_qualified_name` / `to_qualified_name` - they use
`function_qualified_name` / `module_qualified_name` and
`variable_qualified_name` instead - although the class-scope containment
record and every other relationship record do, and although
`GraphComposer.compose_relationship_cypher` reads exactly
`from_qualified_name` / `to_qualified_name` to look up endpoint nodes. -/
theorem c7_contains_rel_endpoint_fields :
    get_contains_rel ⟨ScopeKind.functionDef, "pkg.f", "pkg/f.py", []⟩ "pkg.f.x"
      = [[("type", Value.str "contains_fv_rel"),
          ("from_type", Value.str "function"),
          ("function_qualified_name", Value.str "pkg.f"),
          ("to_type", Value.str "variable"),
          ("variable_qualified_name", Value.str "pkg.f.x")]]
    ∧ getField
        [("type", Value.str "contains_fv_rel"),
         ("from_type", Value.str "function"),
         ("function_qualified_name", Value.str "pkg.f"),
         ("to_type", Value.str "variable"),
         ("variable_qualified_name", Value.str "pkg.f.x")] "from_qualified_name" = none
    ∧ getField
        [("type", Value.str "contains_fv_rel"),
         ("from_type", Value.str "function"),
         ("function_qualified_name", Value.str "pkg.f"),
         ("to_type", Value.str "variable"),
         ("variable_qualified_name", Value.str "pkg.f.x")] "to_qualified_name" = none
    ∧ get_contains_rel ⟨ScopeKind.module, "pkg", "pkg/m.py", []⟩ "pkg.x"
      = [[("type", Value.str "contains_mv_rel"),
          ("from_type", Value.str "module"),
          ("module_qualified_name", Value.str "pkg"),
          ("to_type", Value.str "variable"),
          ("variable_qualified_name", Value.str "pkg.x")]]
    ∧ getField
        [("type", Value.str "contains_mv_rel"),
         ("from_type", Value.str "module"),
         ("module_qualified_name", Value.str "pkg"),
         ("to_type", Value.str "variable"),
         ("variable_qualified_name", Value.str "pkg.x")] "from_qualified_name" = none
    ∧ get_contains_rel ⟨ScopeKind.classDef, "pkg.C", "pkg/c.py", []⟩ "pkg.C.x"
      = [[("type", Value.str "contains_cv_rel"),
          ("from_type", Value.str "class"),
          ("from_qualified_name", Value.str "pkg.C"),
          ("to_type", Value.str "variable"),
          ("to_qualified_name", Value.str "pkg.C.x")]] := by
  refine ⟨rfl, by decide, by decide, rfl, by decide, rfl⟩

theorem mem_distinctFirstGo (l : List String) :
    ∀ (seen : List String) (a : String),
      a ∈ distinctFirstGo seen l ↔ a ∈ l ∧ a ∉ seen := by
  induction l with
  | nil => intro seen a; simp [distinctFirstGo]
  | cons x xs ih =>
      intro seen a
      cases hxc : seen.contains x
      · have hxs : x ∉ seen := by simpa using hxc
        simp only [distinctFirstGo, hxc, Bool.false_eq_true, if_false, List.mem_cons,
          ih (x :: seen) a]
        constructor
        · rintro (rfl | ⟨hmem, hns⟩)
          · exact ⟨Or.inl rfl, hxs⟩
          · exact ⟨Or.inr hmem, fun hn => hns (Or.inr hn)⟩
        · rintro ⟨rfl | hmem, hns⟩
          · exact Or.inl rfl
          · by_cases hax : a = x
            · exact Or.inl hax
            · exact Or.inr ⟨hmem, by simp [hax, hns]⟩
      · have hxs : x ∈ seen := by simpa using hxc
        simp only [distinctFirstGo, hxc, if_true, List.mem_cons, ih seen a]
        constructor
        · rintro ⟨hmem, hns⟩
          exact ⟨Or.inr hmem, hns⟩
        · rintro ⟨rfl | hmem, hns⟩
          · exact absurd hxs hns
          · exact ⟨hmem, hns⟩

theorem nodup_distinctFirstGo (l : List String) :
    ∀ seen : List String, (distinctFirstGo seen l).Nodup := by
  induction l with
  | nil => intro seen; simp [distinctFirstGo]
  | cons x xs ih =>
      intro seen
      cases hxc : seen.contains x
      · simp only [distinctFirstGo, hxc, Bool.false_eq_true, if_false]
        refine List.nodup_cons.mpr ⟨?_, ih (x :: seen)⟩
        intro habs
        exact ((mem_distinctFirstGo xs (x :: seen) x).mp habs).2 (List.mem_cons_self x seen)
      · simpa only [distinctFirstGo, hxc, if_true] using ih seen

/-- Claim C6 amended: for each mapping pair, one synthesis run creates
exactly one external entity record per distinct out-of-project
`to_qualified_name` among that pair's matching relationships - each with
kind the external counterpart, name equal to the qualified name, and
file_path the `<external>` sentinel - and relationships whose qualified name
starts with the module prefix produce none; but the deduplication is
per pair: the records of different mapping pairs accumulate separately in
the target entity collection, so a qualified name targeted by relationships
of two different kinds yields one record per kind. -/
theorem c6_synthesis_per_pair_amended (modPre : String) (rels : List RelDoc)
    (entKind : String) :
    ((synthesizeForPair modPre rels entKind).map (fun d => d.qualified_name)).Nodup
    ∧ (∀ d ∈ synthesizeForPair modPre rels entKind,
        d.kind = entKind ∧ d.name = d.qualified_name ∧ d.file_path = "<external>")
    ∧ (∀ q, q ∈ (synthesizeForPair modPre rels entKind).map (fun d => d.qualified_name)
        ↔ ∃ r ∈ rels, r.to_type = entKind
            ∧ pyStartsWith r.to_qualified_name (modPre ++ ".") = false
            ∧ r.to_qualified_name = q)
    ∧ (∀ store : MongoStore,
        (populate_external_entities modPre store).entCollections "external_function"
          = store.entCollections "external_function"
            ++ synthesizeForPair modPre (store.relCollections "calls") "external_function")
    ∧ (∀ store : MongoStore,
        (populate_external_entities modPre store).entCollections "external_class"
          = store.entCollections "external_class"
            ++ synthesizeForPair modPre (store.relCollections "inherits") "external_class"
            ++ synthesizeForPair modPre (store.relCollections "returns") "external_class"
            ++ synthesizeForPair modPre (store.relCollections "yields") "external_class"
            ++ synthesizeForPair modPre (store.relCollections "instantiates") "external_class"
            ++ synthesizeForPair modPre (store.relCollections "takes") "external_class") := by
  refine ⟨?_, ?_, ?_, fun store => rfl, fun store => rfl⟩
  · simp only [synthesizeForPair, List.map_map]
    have hid : (fun d : ExtEntityDoc => d.qualified_name)
        ∘ (fun q : String => (⟨entKind, q, q, "<external>"⟩ : ExtEntityDoc)) = id := rfl
    rw [hid, List.map_id]
    exact nodup_distinctFirstGo _ []
  · intro d hd
    simp only [synthesizeForPair, List.mem_map] at hd
    rcases hd with ⟨q, _, rfl⟩
    exact ⟨rfl, rfl, rfl⟩
  · intro q
    simp only [synthesizeForPair, List.map_map]
    have hid : (fun d : ExtEntityDoc => d.qualified_name)
        ∘ (fun q : String => (⟨entKind, q, q, "<external>"⟩ : ExtEntityDoc)) = id := rfl
    rw [hid, List.map_id, distinctFirst, mem_distinctFirstGo]
    simp only [List.not_mem_nil, not_false_iff, and_true, List.mem_map, List.mem_filter,
      Bool.and_eq_true, beq_iff_eq, Bool.not_eq_true']
    constructor
    · rintro ⟨r, ⟨hmem, htt, hsw⟩, rfl⟩
      exact ⟨r, hmem, htt, hsw, rfl⟩
    · rintro ⟨r, hmem, htt, hsw, rfl⟩
      exact ⟨r, ⟨hmem, htt, hsw⟩, rfl⟩

/-- Witness for the amended C6: one out-of-project calls target yields
exactly its one external-function record. -/
theorem c6_synthesis_per_pair_witness :
    ("os.path.join" ∈ (synthesizeForPair "myproj" [⟨"external_function", "os.path.join"⟩]
        "external_function").map (fun d => d.qualified_name))
    ∧ ((synthesizeForPair "myproj" [⟨"external_function", "os.path.join"⟩]
        "external_function").map (fun d => d.qualified_name)).Nodup :=
  ⟨((c6_synthesis_per_pair_amended "myproj" [⟨"external_function", "os.path.join"⟩]
        "external_function").2.2.1 "os.path.join").mpr
      ⟨⟨"external_function", "os.path.join"⟩, List.mem_singleton.mpr rfl, rfl, by decide, rfl⟩,
   (c6_synthesis_per_pair_amended "myproj" [⟨"external_function", "os.path.join"⟩]
        "external_function").1⟩

/-- Claim C6 counterexample: the same out-of-project qualified name targeted
by an `inherits` and a `returns` relationship (two mapping pairs that share
the `external_class` counterpart) yields two external entity records for one
distinct qualified name, because each pair's pipeline deduplicates only
within its own relationship collection. -/
theorem c6_cross_kind_duplicate_counterexample :
    (let st : MongoStore :=
      ⟨fun n => if n = "inherits" then [⟨"external_class", "extlib.Base"⟩]
                else if n = "returns" then [⟨"external_class", "extlib.Base"⟩] else [],
       fun _ => []⟩
     ((populate_external_entities "myproj" st).entCollections "external_class").map
        (fun d => d.qualified_name) = ["extlib.Base", "extlib.Base"]
     ∧ ¬ (((populate_external_entities "myproj" st).entCollections "external_class").map
        (fun d => d.qualified_name)).Nodup) := by
  constructor <;> decide

/-- Claim C3 counterexample: running external-entity synthesis twice over the
same single out-of-project calls relationship leaves two external entity
records for the one distinct qualified name - the store's collections are
plain appended collections (no unique index is created anywhere in `src/`),
so the second run re-inserts every record the first run inserted. -/
theorem c3_not_idempotent_counterexample :
    (let st : MongoStore :=
      ⟨fun n => if n = "calls" then [⟨"external_function", "os.path.join"⟩] else [],
       fun _ => []⟩
     ((populate_external_entities "myproj" st).entCollections "external_function").map
        (fun d => d.qualified_name) = ["os.path.join"]
     ∧ ((populate_external_entities "myproj"
          (populate_external_entities "myproj" st)).entCollections
            "external_function").map (fun d => d.qualified_name)
        = ["os.path.join", "os.path.join"]) := by
  constructor <;> decide

/-- Claim C3 amended: one synthesis run deduplicates by qualified name
within itself, but synthesis is not idempotent: a second run over the same
relationship collections appends a second identical copy of each
synthesized record (relationship collections are untouched by synthesis, and
inserts are unconditional appends). -/
theorem c3_rerun_appends_amended (modPre : String) (store : MongoStore) :
    (populate_external_entities modPre store).relCollections = store.relCollections
    ∧ (populate_external_entities modPre
        (populate_external_entities modPre store)).entCollections "external_function"
      = store.entCollections "external_function"
        ++ synthesizeForPair modPre (store.relCollections "calls") "external_function"
        ++ synthesizeForPair modPre (store.relCollections "calls") "external_function" := by
  exact ⟨rfl, rfl⟩

/-- Claim C8 counterexample: a duplicate-key error raised by the store
during external-entity synthesis is not caught - the synthesis loop catches
only `InvalidOperation` - so it propagates to the caller, contrary to the
claim that every duplicate-key insertion conflict is recovered locally. -/
theorem c8_duplicate_key_propagates_counterexample :
    populate_external_entities_run [InsertOutcome.raised PyExc.duplicateKey]
      = Except.error PyExc.duplicateKey := rfl

/-- Claim C8 amended: duplicate-key conflicts during record staging are
caught and the run continues to completion; during external-entity
synthesis only `InvalidOperation` is caught (e.g. inserting an empty
batch) - a duplicate-key conflict there propagates to the caller
immediately, and symmetrically the staging loop does not catch
`InvalidOperation`. -/
theorem c8_error_handling_amended (xs : List InsertOutcome) :
    ((∀ o ∈ xs, o = InsertOutcome.ok ∨ o = InsertOutcome.raised PyExc.duplicateKey) →
      interpret_code_run xs = Except.ok ())
    ∧ ((∀ o ∈ xs, o = InsertOutcome.ok ∨ o = InsertOutcome.raised PyExc.invalidOperation) →
      populate_external_entities_run xs = Except.ok ())
    ∧ (∀ rest, populate_external_entities_run
        (InsertOutcome.raised PyExc.duplicateKey :: rest)
        = Except.error PyExc.duplicateKey)
    ∧ (∀ rest, interpret_code_run (InsertOutcome.raised PyExc.invalidOperation :: rest)
        = Except.error PyExc.invalidOperation) := by
  refine ⟨?_, ?_, fun rest => rfl, fun rest => rfl⟩
  · induction xs with
    | nil => intro _; rfl
    | cons o rest ih =>
        intro hall
        rcases hall o (List.mem_cons_self o rest) with h | h <;> subst h <;>
          exact ih (fun o ho => hall o (List.mem_cons_of_mem _ ho))
  · induction xs with
    | nil => intro _; rfl
    | cons o rest ih =>
        intro hall
        rcases hall o (List.mem_cons_self o rest) with h | h <;> subst h <;>
          exact ih (fun o ho => hall o (List.mem_cons_of_mem _ ho))

/-- Witness for the amended C8: a duplicate-key outcome during staging is
swallowed, and an invalid-operation outcome during synthesis is swallowed. -/
theorem c8_error_handling_witness :
    interpret_code_run [InsertOutcome.raised PyExc.duplicateKey] = Except.ok ()
    ∧ populate_external_entities_run [InsertOutcome.raised PyExc.invalidOperation]
      = Except.ok () :=
  ⟨(c8_error_handling_amended [InsertOutcome.raised PyExc.duplicateKey]).1 (by decide),
   (c8_error_handling_amended [InsertOutcome.raised PyExc.invalidOperation]).2.1 (by decide)⟩

end CSKG
